import Mathlib

/-!
A verification development for the `mcp-server-tm-partner` MCP server
(`src/index.ts`): a shallow embedding of its request router (the
`CallToolRequestSchema` handler), its text formatter, its JSON passthrough
(`JSON.stringify(results, null, 2)`), and its catch-block error wrapping,
together with theorems about the routing, formatting and error behaviour.

JSON values are modelled by the inductive `Json` (numbers as `Int`, which
covers every numeric literal the handler ever inspects); JavaScript
truthiness, property access and string interpolation are modelled by
`Json.truthy`, `jget` and `jsShow`.
-/

/-- A JSON value as the handler sees it (`results` has type `any` in the
source; numbers are modelled as integers). Object fields keep their order. -/
inductive Json where
  | null
  | bool (b : Bool)
  | num (n : Int)
  | str (s : String)
  | arr (elems : List Json)
  | obj (fields : List (String × Json))
deriving Repr

/-- JavaScript truthiness of a value: `null`, `false`, `0` and `""` are falsy;
every array and object (even empty) is truthy. -/
def Json.truthy : Json → Bool
  | .null => false
  | .bool b => b
  | .num n => n != 0
  | .str s => !s.isEmpty
  | .arr _ => true
  | .obj _ => true

/-- First binding of a key in an object field list. -/
def jlookup : List (String × Json) → String → Option Json
  | [], _ => none
  | (k0, v) :: rest, k => if k0 = k then some v else jlookup rest k

/-- JavaScript property access `j[k]`: a field of an object, `undefined`
(i.e. `none`) on every non-object. -/
def jget (j : Json) (k : String) : Option Json :=
  match j with
  | .obj fields => jlookup fields k
  | _ => none

/-- Truthiness of a possibly-`undefined` value (`none` is `undefined`). -/
def jtruthy (o : Option Json) : Bool :=
  match o with
  | none => false
  | some v => v.truthy

mutual
/-- JavaScript string conversion as used by template literals: primitives as
usual, arrays joined with `,` (with `null` elements blank), objects as
`"[object Object]"`. -/
def jsDisplay : Json → String
  | .null => "null"
  | .bool true => "true"
  | .bool false => "false"
  | .num n => toString n
  | .str s => s
  | .arr xs => String.intercalate "," (jsDisplayElems xs)
  | .obj _ => "[object Object]"
def jsDisplayElems : List Json → List String
  | [] => []
  | .null :: xs => "" :: jsDisplayElems xs
  | x :: xs => jsDisplay x :: jsDisplayElems xs
end

/-- Interpolation of a possibly-`undefined` value (`${x}`). -/
def jsShow (o : Option Json) : String :=
  match o with
  | none => "undefined"
  | some v => jsDisplay v

/-- JavaScript `x || dflt` followed by interpolation: the value if truthy,
otherwise the (string) default. -/
def jsOr (o : Option Json) (dflt : String) : String :=
  if jtruthy o then jsShow o else dflt

/-- JavaScript `x.length > 0`: positive length of an array or string; `false`
for every other value (whose `.length` is `undefined`). -/
def jsLenPos (j : Json) : Bool :=
  match j with
  | .arr xs => decide (0 < xs.length)
  | .str s => decide (0 < s.length)
  | _ => false

/-- JavaScript `x[0]` restricted to the uses in the source: the head of an
array. Indexing any other value yields nothing whose fields are defined, so
`null` (all the source ever does with the result is access fields). -/
def jsFirst : Json → Json
  | .arr (x :: _) => x
  | _ => Json.null

/-- Truthiness of a possibly-`undefined` string argument. -/
def strTruthy (o : Option String) : Bool :=
  match o with
  | none => false
  | some s => !s.isEmpty

/-- An apostrophe, kept out of string literals. -/
def apos : String := String.mk ['\x27']

/-- The arguments of a `search_tm_partner` tool call. Fields the handler never
destructures (`marketId`, `onsaleStartDateTime`, `onsaleEndDateTime`,
`locale`, `source`) are carried so that their irrelevance is expressible. -/
structure ToolArgs where
  type : Option String := none
  keyword : Option String := none
  eventId : Option String := none
  venueId : Option String := none
  attractionId : Option String := none
  startDateTime : Option String := none
  endDateTime : Option String := none
  city : Option String := none
  stateCode : Option String := none
  countryCode : Option String := none
  postalCode : Option String := none
  latlong : Option String := none
  radius : Option String := none
  unit : Option String := none
  classificationName : Option (List String) := none
  size : Option Int := none
  page : Option Int := none
  sort : Option String := none
  format : Option String := none
  marketId : Option String := none
  onsaleStartDateTime : Option String := none
  onsaleEndDateTime : Option String := none
  locale : Option String := none
  source : Option String := none
deriving Repr

/-- The query parameters `searchEvents` is called with (the fields of the
object literal at the `apiClient.searchEvents` call site). -/
structure SearchEventsParams where
  keyword : Option String
  attractionId : Option String
  venueId : Option String
  postalCode : Option String
  latlong : Option String
  radius : Option String
  unit : Option String
  startDateTime : Option String
  endDateTime : Option String
  size : Int
  page : Int
  sort : Option String
  city : Option String
  countryCode : Option String
  stateCode : Option String
  classificationName : Option (List String)
deriving Repr, DecidableEq

/-- The query parameters `searchVenues` is called with. There is no venue
identifier among them. -/
structure SearchVenuesParams where
  keyword : Option String
  size : Int
  page : Int
  sort : Option String
  city : Option String
  countryCode : Option String
  stateCode : Option String
  postalCode : Option String
  latlong : Option String
  radius : Option String
  unit : Option String
deriving Repr, DecidableEq

/-- The query parameters `searchAttractions` is called with. There is no
attraction identifier among them. -/
structure SearchAttractionsParams where
  keyword : Option String
  size : Int
  page : Int
  sort : Option String
  classificationName : Option (List String)
deriving Repr, DecidableEq

/-- The single outbound HTTP call an invocation issues: one of the six
`TicketmasterPartnerAPIClient` methods, with exactly the data the handler
passes (the `get*` methods receive only the identifier). -/
inductive UpstreamCall where
  | getEvent (id : String)
  | searchEvents (params : SearchEventsParams)
  | getVenue (id : String)
  | searchVenues (params : SearchVenuesParams)
  | getAttraction (id : String)
  | searchAttractions (params : SearchAttractionsParams)
deriving Repr, DecidableEq

/-- MCP error codes used by the handler. -/
inductive ErrorCode where
  | invalidParams
  | methodNotFound
  | internalError
deriving Repr, DecidableEq

/-- The numeric JSON-RPC code of an MCP error code. -/
def ErrorCode.num : ErrorCode → Int
  | .invalidParams => -32602
  | .methodNotFound => -32601
  | .internalError => -32603

/-- An `McpError` as thrown by the handler. -/
structure McpError where
  code : ErrorCode
  msg : String
deriving Repr, DecidableEq

/-- The `message` property of an `McpError` instance (the SDK constructor
prefixes the code). -/
def McpError.jsMessage (e : McpError) : String :=
  "MCP error " ++ toString e.code.num ++ ": " ++ e.msg

/-- The message of the `McpError` thrown for an unrecognized `type`. -/
def invalidTypeMsg (t : Option String) : String :=
  "Invalid search type: " ++ jsStrShow t ++ ". Must be " ++ apos ++ "event" ++
    apos ++ ", " ++ apos ++ "venue" ++ apos ++ ", or " ++ apos ++
    "attraction" ++ apos ++ "."
where
  /-- Interpolation of the possibly-`undefined` string `type`. -/
  jsStrShow (t : Option String) : String :=
    match t with
    | none => "undefined"
    | some s => s

/-- The event-search parameters built from the arguments (sizes defaulted by
the destructuring: `size = 20`, `page = 0`). -/
def eventSearchOf (args : ToolArgs) : SearchEventsParams :=
  { keyword := args.keyword
    attractionId := args.attractionId
    venueId := args.venueId
    postalCode := args.postalCode
    latlong := args.latlong
    radius := args.radius
    unit := args.unit
    startDateTime := args.startDateTime
    endDateTime := args.endDateTime
    size := args.size.getD 20
    page := args.page.getD 0
    sort := args.sort
    city := args.city
    countryCode := args.countryCode
    stateCode := args.stateCode
    classificationName := args.classificationName }

/-- The venue-search parameters built from the arguments. -/
def venueSearchOf (args : ToolArgs) : SearchVenuesParams :=
  { keyword := args.keyword
    size := args.size.getD 20
    page := args.page.getD 0
    sort := args.sort
    city := args.city
    countryCode := args.countryCode
    stateCode := args.stateCode
    postalCode := args.postalCode
    latlong := args.latlong
    radius := args.radius
    unit := args.unit }

/-- The attraction-search parameters built from the arguments. -/
def attractionSearchOf (args : ToolArgs) : SearchAttractionsParams :=
  { keyword := args.keyword
    size := args.size.getD 20
    page := args.page.getD 0
    sort := args.sort
    classificationName := args.classificationName }

/-- The Request Router: the `if (type === ...)` chain of the handler. Decides
the one upstream call, or fails with the `InvalidParams` `McpError` the
handler throws for an unrecognized `type`. Identifier tests are JavaScript
truthiness tests (`if (eventId)`, `if (venueId && !keyword)`, ...). -/
def route (args : ToolArgs) : Except McpError UpstreamCall :=
  if args.type = some "event" then
    if strTruthy args.eventId then
      .ok (.getEvent (args.eventId.getD ""))
    else
      .ok (.searchEvents (eventSearchOf args))
  else if args.type = some "venue" then
    if strTruthy args.venueId && !strTruthy args.keyword then
      .ok (.getVenue (args.venueId.getD ""))
    else
      .ok (.searchVenues (venueSearchOf args))
  else if args.type = some "attraction" then
    if strTruthy args.attractionId && !strTruthy args.keyword then
      .ok (.getAttraction (args.attractionId.getD ""))
    else
      .ok (.searchAttractions (attractionSearchOf args))
  else
    .error ⟨.invalidParams, invalidTypeMsg args.type⟩

/-- The text projection of an event (`formatEventAsText`): the header line,
then conditionally the date/time, first-venue, first-price-range and URL
lines, joined by newlines. -/
def formatEventAsText (event : Json) : String :=
  let lines := ["Event: " ++ jsShow (jget event "name") ++ " (ID: " ++
    jsShow (jget event "id") ++ ")"]
  let lines :=
    if jtruthy ((jget event "dates").bind (fun d => jget d "start")) then
      lines ++ ["Date/Time: " ++
        jsOr (((jget event "dates").bind (fun d => jget d "start")).bind
          (fun s => jget s "localDate")) "TBD" ++ " at " ++
        jsOr (((jget event "dates").bind (fun d => jget d "start")).bind
          (fun s => jget s "localTime")) "TBD"]
    else lines
  let lines :=
    if jtruthy ((jget event "_embedded").bind (fun m => jget m "venues")) &&
        jsLenPos (((jget event "_embedded").bind
          (fun m => jget m "venues")).getD Json.null) then
      let venue := jsFirst (((jget event "_embedded").bind
        (fun m => jget m "venues")).getD Json.null)
      let lines := lines ++ ["Venue: " ++ jsShow (jget venue "name")]
      if jtruthy ((jget venue "city").bind (fun c => jget c "name")) then
        lines ++ ["Location: " ++
          jsShow ((jget venue "city").bind (fun c => jget c "name")) ++
          (if jtruthy (jget venue "state") then
            ", " ++ jsShow ((jget venue "state").bind
              (fun s => jget s "stateCode"))
          else "")]
      else lines
    else lines
  let lines :=
    if jtruthy (jget event "priceRanges") &&
        jsLenPos ((jget event "priceRanges").getD Json.null) then
      let range := jsFirst ((jget event "priceRanges").getD Json.null)
      lines ++ ["Price Range: $" ++ jsShow (jget range "min") ++ " - $" ++
        jsShow (jget range "max") ++ " " ++ jsShow (jget range "currency")]
    else lines
  let lines :=
    if jtruthy (jget event "url") then
      lines ++ ["URL: " ++ jsShow (jget event "url")]
    else lines
  String.intercalate "\n" lines

/-- The text projection of a venue (`formatVenueAsText`). -/
def formatVenueAsText (venue : Json) : String :=
  let lines := ["Venue: " ++ jsShow (jget venue "name") ++ " (ID: " ++
    jsShow (jget venue "id") ++ ")"]
  let lines :=
    if jtruthy ((jget venue "address").bind (fun a => jget a "line1")) then
      lines ++ ["Address: " ++
        jsShow ((jget venue "address").bind (fun a => jget a "line1"))]
    else lines
  let lines :=
    if jtruthy ((jget venue "city").bind (fun c => jget c "name")) then
      let location := [jsShow ((jget venue "city").bind
        (fun c => jget c "name"))]
      let location :=
        if jtruthy ((jget venue "state").bind (fun s => jget s "stateCode")) then
          location ++ [jsShow ((jget venue "state").bind
            (fun s => jget s "stateCode"))]
        else location
      let location :=
        if jtruthy ((jget venue "country").bind
            (fun s => jget s "countryCode")) then
          location ++ [jsShow ((jget venue "country").bind
            (fun s => jget s "countryCode"))]
        else location
      lines ++ ["Location: " ++ String.intercalate ", " location]
    else lines
  let lines :=
    if jtruthy (jget venue "url") then
      lines ++ ["URL: " ++ jsShow (jget venue "url")]
    else lines
  String.intercalate "\n" lines

/-- The element `classifications.find(c => c.primary)` (the first with a
truthy `primary` field), if any. -/
def findPrimary : List Json → Option Json
  | [] => none
  | c :: cs => if jtruthy (jget c "primary") then some c else findPrimary cs

/-- The classification the attraction projection uses:
`classifications.find(c => c.primary) || classifications[0]`. -/
def primaryOrFirst (j : Json) : Json :=
  match j with
  | .arr xs => (findPrimary xs).getD (jsFirst (.arr xs))
  | _ => Json.null

/-- The text projection of an attraction (`formatAttractionAsText`). -/
def formatAttractionAsText (attraction : Json) : String :=
  let lines := ["Attraction: " ++ jsShow (jget attraction "name") ++
    " (ID: " ++ jsShow (jget attraction "id") ++ ")"]
  let lines :=
    if jtruthy (jget attraction "classifications") &&
        jsLenPos ((jget attraction "classifications").getD Json.null) then
      let primary := primaryOrFirst ((jget attraction "classifications").getD
        Json.null)
      let classInfo : List String := []
      let classInfo :=
        if jtruthy ((jget primary "segment").bind (fun s => jget s "name")) then
          classInfo ++ [jsShow ((jget primary "segment").bind
            (fun s => jget s "name"))]
        else classInfo
      let classInfo :=
        if jtruthy ((jget primary "genre").bind (fun g => jget g "name")) then
          classInfo ++ [jsShow ((jget primary "genre").bind
            (fun g => jget g "name"))]
        else classInfo
      if 0 < classInfo.length then
        lines ++ ["Classification: " ++ String.intercalate " - " classInfo]
      else lines
    else lines
  let lines :=
    if jtruthy (jget attraction "url") then
      lines ++ ["URL: " ++ jsShow (jget attraction "url")]
    else lines
  String.intercalate "\n" lines

/-- The elements of an embedded collection. The upstream embedded fields are
arrays; on a (never-observed) non-array the source's `.map` would throw. -/
def jsElems : Json → List Json
  | .arr xs => xs
  | _ => []

/-- The separator the formatter joins search-result projections with. -/
def resultSep : String := "\n\n---\n\n"

/-- The text-mode body (`textOutput`): the embedded collection mapped through
the matching projection (events checked first, then venues, then
attractions), or the single-item projection selected by `type`, or `""`. -/
def textBody (type : Option String) (results : Json) : String :=
  if jtruthy (jget results "_embedded") then
    let emb := (jget results "_embedded").getD Json.null
    if jtruthy (jget emb "events") then
      String.intercalate resultSep
        ((jsElems ((jget emb "events").getD Json.null)).map formatEventAsText)
    else if jtruthy (jget emb "venues") then
      String.intercalate resultSep
        ((jsElems ((jget emb "venues").getD Json.null)).map formatVenueAsText)
    else if jtruthy (jget emb "attractions") then
      String.intercalate resultSep
        ((jsElems ((jget emb "attractions").getD
          Json.null)).map formatAttractionAsText)
    else ""
  else
    if type = some "event" then formatEventAsText results
    else if type = some "venue" then formatVenueAsText results
    else if type = some "attraction" then formatAttractionAsText results
    else ""

/-- Lower-case hexadecimal digit character for `k < 16`. -/
def hexDigitChar (k : Nat) : Char :=
  if k < 10 then Char.ofNat (48 + k) else Char.ofNat (87 + k)

/-- JSON string escaping of one character, exactly as `JSON.stringify` does
it: the named escapes, `\u00xx` for the remaining control characters, and
every other character verbatim. -/
def escChar (c : Char) : List Char :=
  if c = '"' then ['\\', '"']
  else if c = '\\' then ['\\', '\\']
  else if c = '\n' then ['\\', 'n']
  else if c = '\t' then ['\\', 't']
  else if c = '\r' then ['\\', 'r']
  else if c = '\x08' then ['\\', 'b']
  else if c = '\x0c' then ['\\', 'f']
  else if c.toNat < 32 then
    ['\\', 'u', '0', '0', hexDigitChar (c.toNat / 16), hexDigitChar (c.toNat % 16)]
  else [c]

/-- JSON escaping of a character list. -/
def escList : List Char → List Char
  | [] => []
  | c :: cs => escChar c ++ escList cs

/-- Decimal digit characters of a natural number, most significant first. -/
def natChars (n : Nat) : List Char :=
  if n < 10 then [Char.ofNat (48 + n)]
  else natChars (n / 10) ++ [Char.ofNat (48 + n % 10)]
termination_by n
decreasing_by exact Nat.div_lt_self (by omega) (by omega)

/-- Decimal characters of an integer: optional sign, then digits. -/
def intChars (n : Int) : List Char :=
  if n < 0 then '-' :: natChars n.natAbs else natChars n.natAbs

/-- A run of `n` spaces. -/
def spacesChars (n : Nat) : List Char := List.replicate n ' '

/-- The size of a list is positive (used for the printer termination). -/
theorem sizeOf_list_pos {α : Type} [SizeOf α] (l : List α) : 0 < sizeOf l := by
  cases l <;> simp_arith

mutual
/-- `JSON.stringify(j, null, 2)` as a character list: two-space indentation,
one element or member per line, `": "` after keys, the closing bracket
aligned with the parent (`ind` is the parent indentation). -/
def printVal (ind : Nat) (j : Json) : List Char :=
  match j with
  | .null => ['n', 'u', 'l', 'l']
  | .bool false => ['f', 'a', 'l', 's', 'e']
  | .bool true => ['t', 'r', 'u', 'e']
  | .num n => intChars n
  | .str s => '"' :: (escList s.data ++ ['"'])
  | .arr [] => ['[', ']']
  | .arr (x :: xs) =>
    '[' :: '\n' :: (printItemsL (ind + 2) x xs ++
      '\n' :: (spacesChars ind ++ [']']))
  | .obj [] => ['\x7b', '\x7d']
  | .obj ((k, v) :: fs) =>
    '\x7b' :: '\n' :: (printFieldsL (ind + 2) k v fs ++
      '\n' :: (spacesChars ind ++ ['\x7d']))
termination_by sizeOf j
/-- The lines of a nonempty array body, separated by `",\n"`. -/
def printItemsL (ind : Nat) (x : Json) (xs : List Json) : List Char :=
  spacesChars ind ++ (printVal ind x ++
    (match xs with
     | [] => []
     | y :: ys => ',' :: '\n' :: printItemsL ind y ys))
termination_by sizeOf x + sizeOf xs
decreasing_by
  · have := sizeOf_list_pos xs; omega
  · simp_arith
/-- The lines of a nonempty object body, separated by `",\n"`. -/
def printFieldsL (ind : Nat) (k : String) (v : Json)
    (fs : List (String × Json)) : List Char :=
  spacesChars ind ++ ('"' :: (escList k.data ++
    ('"' :: ':' :: ' ' :: printVal ind v))) ++
    (match fs with
     | [] => []
     | (k2, v2) :: gs => ',' :: '\n' :: printFieldsL ind k2 v2 gs)
termination_by sizeOf v + sizeOf fs
decreasing_by
  · have := sizeOf_list_pos fs; omega
  · simp_arith
end

/-- `JSON.stringify(j, null, 2)`. -/
def prettyStringify (j : Json) : String := String.mk (printVal 0 j)

/-- The output-formatting step of the handler: `format === 'text'` selects
the text body (with the `'No results found.'` sentinel replacing an empty
one, via `textOutput || ...`); anything else returns
`JSON.stringify(results, null, 2)`. -/
def formatOutput (args : ToolArgs) (results : Json) : String :=
  if args.format.getD "json" = "text" then
    let textOutput := textBody args.type results
    if textOutput = "" then "No results found." else textOutput
  else
    prettyStringify results

/-- What the upstream API does with the one outbound call: a 2xx body, a
non-2xx response (status, status text, body — what axios exposes on
`error.response`), or no response at all (`error.request` only). -/
inductive UpstreamResponse where
  | ok (body : Json)
  | httpError (status : Nat) (statusText : String) (data : Json)
  | noResponse
deriving Repr

/-- An exception reaching the handler's `catch` block: an axios error with a
`response`, an axios error with only a `request`, or a thrown `McpError`
(which has neither). -/
inductive CaughtError where
  | axiosResponse (status : Nat) (statusText : String) (data : Json)
  | axiosNoResponse
  | mcpErr (e : McpError)
deriving Repr

/-- The message of the error produced for a non-2xx upstream response:
status, a dash, then the upstream `data?.message || statusText`. -/
def upstreamRejectedMsg (status : Nat) (statusText : String) (data : Json) :
    String :=
  "Ticketmaster Partner API error: " ++ toString status ++ " - " ++
    (if jtruthy (jget data "message") then jsShow (jget data "message")
     else statusText)

/-- The handler's `catch` block: the `error.response` branch formats the
status and the upstream `data?.message || statusText`; the `error.request`
branch returns the fixed no-response message; everything else (including a
thrown `McpError`) is re-wrapped as `Error: ${error.message}`. All three
produce `ErrorCode.InternalError`. -/
def catchWrap : CaughtError → McpError
  | .axiosResponse status statusText data =>
    ⟨.internalError, upstreamRejectedMsg status statusText data⟩
  | .axiosNoResponse =>
    ⟨.internalError, "No response from Ticketmaster Partner API"⟩
  | .mcpErr e =>
    ⟨.internalError, "Error: " ++ e.jsMessage⟩

/-- The `try` body of the handler for the `search_tm_partner` tool: route,
issue the one upstream call (`up`), format. A thrown error is returned as
the `CaughtError` the `catch` block will receive. -/
def tryBody (args : ToolArgs) (up : UpstreamCall → UpstreamResponse) :
    Except CaughtError String :=
  match route args with
  | .error e => .error (.mcpErr e)
  | .ok call =>
    match up call with
    | .ok body => .ok (formatOutput args body)
    | .httpError status statusText data =>
      .error (.axiosResponse status statusText data)
    | .noResponse => .error .axiosNoResponse

/-- One `search_tm_partner` invocation end to end: the `try` body with the
`catch` block applied to whatever it throws. The `String` result is the text
of the single returned content block. -/
def handleTool (args : ToolArgs) (up : UpstreamCall → UpstreamResponse) :
    Except McpError String :=
  match tryBody args up with
  | .ok s => .ok s
  | .error e => .error (catchWrap e)

/-- The full `CallToolRequestSchema` handler: an unknown tool name throws a
`MethodNotFound` `McpError` inside the `try`, so it too is re-wrapped by the
`catch` block. -/
def callToolHandler (name : String) (args : ToolArgs)
    (up : UpstreamCall → UpstreamResponse) : Except McpError String :=
  if name = "search_tm_partner" then handleTool args up
  else .error (catchWrap (.mcpErr ⟨.methodNotFound, "Unknown tool: " ++ name⟩))

/-- JSON whitespace. -/
def isWs (c : Char) : Bool := c = ' ' || c = '\n' || c = '\t' || c = '\r'

/-- Drop leading JSON whitespace. -/
def skipWs : List Char → List Char
  | [] => []
  | c :: cs => if isWs c then skipWs cs else c :: cs

/-- Expect a literal character sequence at the front of the input. -/
def dropLit : List Char → List Char → Option (List Char)
  | [], input => some input
  | c :: cs, d :: ds => if c = d then dropLit cs ds else none
  | _ :: _, [] => none

/-- A decimal digit character, by code point. -/
def isDig (c : Char) : Bool := 48 ≤ c.toNat && c.toNat ≤ 57

/-- The value of a decimal digit character. -/
def digVal (c : Char) : Nat := c.toNat - 48

/-- Consume a run of decimal digits, extending the accumulator. -/
def grabDigits (acc : Nat) : List Char → Nat × List Char
  | [] => (acc, [])
  | c :: cs => if isDig c then grabDigits (acc * 10 + digVal c) cs else (acc, c :: cs)

/-- Parse an integer JSON number (the only kind the pretty-printer emits). -/
def parseNum : List Char → Option (Json × List Char)
  | [] => none
  | c :: cs =>
    if c = '-' then
      match cs with
      | [] => none
      | d :: _ =>
        if isDig d then
          let p := grabDigits 0 cs
          some (.num (-(p.1 : Int)), p.2)
        else none
    else if isDig c then
      let p := grabDigits 0 (c :: cs)
      some (.num ((p.1 : Int)), p.2)
    else none

/-- The value of a hexadecimal digit character, if it is one. -/
def hexVal (c : Char) : Option Nat :=
  if 48 ≤ c.toNat && c.toNat ≤ 57 then some (c.toNat - 48)
  else if 97 ≤ c.toNat && c.toNat ≤ 102 then some (c.toNat - 87)
  else if 65 ≤ c.toNat && c.toNat ≤ 70 then some (c.toNat - 55)
  else none

/-- The character a single-letter JSON escape denotes. -/
def unescapeChar : Char → Option Char
  | 'n' => some '\n'
  | 't' => some '\t'
  | 'r' => some '\r'
  | 'b' => some '\x08'
  | 'f' => some '\x0c'
  | '/' => some '/'
  | '"' => some '"'
  | '\\' => some '\\'
  | _ => none

mutual
/-- Parse a JSON string body (the opening quote already consumed), undoing
escapes, up to the closing quote. -/
def parseStrBody : List Char → Option (List Char × List Char)
  | [] => none
  | c :: r =>
    if c = '"' then some ([], r)
    else if c = '\\' then parseEsc r
    else (parseStrBody r).map (fun p => (c :: p.1, p.2))
termination_by l => l.length
decreasing_by all_goals simp_arith
/-- Parse what follows a backslash inside a string body. -/
def parseEsc : List Char → Option (List Char × List Char)
  | [] => none
  | e :: r2 =>
    if e = 'u' then parseHexEsc r2
    else
      match unescapeChar e with
      | some ch => (parseStrBody r2).map (fun p => (ch :: p.1, p.2))
      | none => none
termination_by l => l.length
decreasing_by all_goals simp_arith
/-- Parse the four hex digits of a `\u` escape, then the rest of the body. -/
def parseHexEsc : List Char → Option (List Char × List Char)
  | h1 :: h2 :: h3 :: h4 :: r3 =>
    match hexVal h1, hexVal h2, hexVal h3, hexVal h4 with
    | some a, some b, some c3, some d =>
      (parseStrBody r3).map
        (fun p => (Char.ofNat (((a * 16 + b) * 16 + c3) * 16 + d) :: p.1, p.2))
    | _, _, _, _ => none
  | _ => none
termination_by l => l.length
decreasing_by all_goals simp_arith
end

mutual
/-- Parse one JSON value, skipping leading whitespace. Fuel-bounded; the
round-trip theorems supply enough fuel. -/
def parseVal : Nat → List Char → Option (Json × List Char)
  | 0, _ => none
  | fuel + 1, input =>
    match skipWs input with
    | [] => none
    | c :: r =>
      if c = 'n' then (dropLit ['u', 'l', 'l'] r).map (fun r2 => (Json.null, r2))
      else if c = 't' then (dropLit ['r', 'u', 'e'] r).map (fun r2 => (Json.bool true, r2))
      else if c = 'f' then (dropLit ['a', 'l', 's', 'e'] r).map (fun r2 => (Json.bool false, r2))
      else if c = '"' then (parseStrBody r).map (fun p => (Json.str (String.mk p.1), p.2))
      else if c = '[' then
        match skipWs r with
        | [] => none
        | c2 :: r2 =>
          if c2 = ']' then some (Json.arr [], r2)
          else (parseItems fuel (c2 :: r2)).map (fun p => (Json.arr p.1, p.2))
      else if c = '\x7b' then
        match skipWs r with
        | [] => none
        | c2 :: r2 =>
          if c2 = '\x7d' then some (Json.obj [], r2)
          else (parseFields fuel (c2 :: r2)).map (fun p => (Json.obj p.1, p.2))
      else if c = '-' || isDig c then parseNum (c :: r)
      else none
/-- Parse the remaining elements of a nonempty array, up to `]`. -/
def parseItems : Nat → List Char → Option (List Json × List Char)
  | 0, _ => none
  | fuel + 1, input =>
    (parseVal fuel input).bind fun p =>
      match skipWs p.2 with
      | [] => none
      | c :: r =>
        if c = ',' then (parseItems fuel r).map (fun q => (p.1 :: q.1, q.2))
        else if c = ']' then some ([p.1], r)
        else none
/-- Parse the remaining members of a nonempty object, up to the closing
brace. -/
def parseFields : Nat → List Char → Option (List (String × Json) × List Char)
  | 0, _ => none
  | fuel + 1, input =>
    match skipWs input with
    | [] => none
    | c :: r =>
      if c = '"' then
        (parseStrBody r).bind fun kp =>
          match skipWs kp.2 with
          | [] => none
          | c2 :: r2 =>
            if c2 = ':' then
              (parseVal fuel r2).bind fun vp =>
                match skipWs vp.2 with
                | [] => none
                | c3 :: r3 =>
                  if c3 = ',' then
                    (parseFields fuel r3).map
                      (fun q => ((String.mk kp.1, vp.1) :: q.1, q.2))
                  else if c3 = '\x7d' then some ([(String.mk kp.1, vp.1)], r3)
                  else none
            else none
      else none
end

/-- Parse a complete JSON document (`JSON.parse`, restricted to the values
the pretty-printer produces). -/
def parseJson (s : String) : Option Json :=
  match parseVal (s.data.length + 1) s.data with
  | some (j, rest) => if skipWs rest = [] then some j else none
  | none => none

/-- Whether `needle` is an initial segment of `hay`. -/
def startsWithL : List Char → List Char → Bool
  | _, [] => true
  | [], _ :: _ => false
  | c :: cs, d :: ds => c = d && startsWithL cs ds

/-- Whether `needle` occurs contiguously anywhere in `hay`. -/
def hasSubstr (hay needle : List Char) : Bool :=
  if startsWithL hay needle then true
  else
    match hay with
    | [] => false
    | _ :: t => hasSubstr t needle

/-- String-level containment (the sense in which an error message contains a
status code or an upstream message). -/
def strContains (hay needle : String) : Bool := hasSubstr hay.data needle.data

/-- The empty needle is found at the front of anything. -/
theorem startsWithL_nil (l : List Char) : startsWithL l [] = true := by
  cases l <;> rfl

/-- A list starts with any of its prefixes. -/
theorem startsWithL_append (pre post : List Char) :
    startsWithL (pre ++ post) pre = true := by
  induction pre with
  | nil => simpa using startsWithL_nil post
  | cons c cs ih => simp [startsWithL, ih]

/-- Containment at the very front. -/
theorem hasSubstr_here (hay needle : List Char)
    (h : startsWithL hay needle = true) : hasSubstr hay needle = true := by
  rw [hasSubstr.eq_def, if_pos h]

/-- Containment is stable under prepending. -/
theorem hasSubstr_append_left (pre hay needle : List Char)
    (h : hasSubstr hay needle = true) : hasSubstr (pre ++ hay) needle = true := by
  induction pre with
  | nil => simpa using h
  | cons c cs ih =>
    rw [List.cons_append, hasSubstr.eq_def]
    split
    · rfl
    · exact ih

/-- Any middle segment is contained. -/
theorem hasSubstr_mid (pre mid post : List Char) :
    hasSubstr (pre ++ (mid ++ post)) mid = true :=
  hasSubstr_append_left pre _ _ (hasSubstr_here _ _ (startsWithL_append mid post))

/-- The upstream-rejected message contains the decimal status code. -/
theorem upstreamRejectedMsg_contains_status (status : Nat) (statusText : String)
    (data : Json) :
    strContains (upstreamRejectedMsg status statusText data)
      (toString status) = true := by
  rw [upstreamRejectedMsg, strContains]
  simp only [String.data_append, List.append_assoc]
  exact hasSubstr_mid _ _ _

/-- The upstream-rejected message contains the upstream-supplied `message`
field whenever it is a nonempty string. -/
theorem upstreamRejectedMsg_contains_message (status : Nat) (statusText : String)
    (data : Json) (m : String) (hm : jget data "message" = some (.str m))
    (hne : m.isEmpty = false) :
    strContains (upstreamRejectedMsg status statusText data) m = true := by
  rw [upstreamRejectedMsg, strContains]
  rw [hm]
  simp only [jtruthy, Json.truthy, hne, Bool.not_false, if_pos, jsShow, jsDisplay]
  simp only [String.data_append, List.append_assoc]
  have h := hasSubstr_mid
    (("Ticketmaster Partner API error: " ++ toString status ++ " - ").data)
    m.data []
  simpa [String.data_append, List.append_assoc] using h

/-- C1: for `kind="venue"`, whenever both `venueId` and `keyword` are truthy
the Router issues the venue *search* (whose parameter set forwards `keyword`
and has no venue-identifier field at all), and a single-entity venue fetch
happens exactly when `venueId` is truthy and `keyword` is not; the attraction
case is symmetric with `attractionId`. -/
theorem claim_C1 (args : ToolArgs) :
    (args.type = some "venue" →
      ((strTruthy args.venueId = true → strTruthy args.keyword = true →
        route args = .ok (.searchVenues (venueSearchOf args))) ∧
      ((∃ id, route args = .ok (.getVenue id)) ↔
        (strTruthy args.venueId = true ∧ strTruthy args.keyword = false)))) ∧
    (args.type = some "attraction" →
      ((strTruthy args.attractionId = true → strTruthy args.keyword = true →
        route args = .ok (.searchAttractions (attractionSearchOf args))) ∧
      ((∃ id, route args = .ok (.getAttraction id)) ↔
        (strTruthy args.attractionId = true ∧ strTruthy args.keyword = false)))) := by
  constructor
  · intro ht
    constructor
    · intro hv hk
      simp [route, ht, hv, hk]
    · constructor
      · rintro ⟨id, hid⟩
        by_cases hc : strTruthy args.venueId && !strTruthy args.keyword
        · simpa [Bool.and_eq_true, Bool.not_eq_true'] using hc
        · simp [route, ht, hc] at hid
      · rintro ⟨h1, h2⟩
        exact ⟨args.venueId.getD "", by simp [route, ht, h1, h2]⟩
  · intro ht
    constructor
    · intro hv hk
      simp [route, ht, hv, hk]
    · constructor
      · rintro ⟨id, hid⟩
        by_cases hc : strTruthy args.attractionId && !strTruthy args.keyword
        · simpa [Bool.and_eq_true, Bool.not_eq_true'] using hc
        · simp [route, ht, hc] at hid
      · rintro ⟨h1, h2⟩
        exact ⟨args.attractionId.getD "", by simp [route, ht, h1, h2]⟩

/-- Witness for C1 at concrete inputs: identifier plus keyword searches
(keyword forwarded), identifier alone fetches. -/
theorem claim_C1_w :
    route { type := some "venue", venueId := some "V1", keyword := some "rock" } =
      .ok (.searchVenues (venueSearchOf
        { type := some "venue", venueId := some "V1", keyword := some "rock" })) ∧
    (∃ id, route { type := some "venue", venueId := some "V1" } =
      .ok (.getVenue id)) ∧
    route { type := some "attraction", attractionId := some "A1",
            keyword := some "rock" } =
      .ok (.searchAttractions (attractionSearchOf
        { type := some "attraction", attractionId := some "A1",
          keyword := some "rock" })) ∧
    (∃ id, route { type := some "attraction", attractionId := some "A1" } =
      .ok (.getAttraction id)) := by
  refine ⟨?_, ?_, ?_, ?_⟩
  · exact ((claim_C1 _).1 rfl).1 (by decide) (by decide)
  · exact ((claim_C1 _).1 rfl).2.mpr ⟨by decide, by decide⟩
  · exact ((claim_C1 _).2 rfl).1 (by decide) (by decide)
  · exact ((claim_C1 _).2 rfl).2.mpr ⟨by decide, by decide⟩

/-- C2: for `kind="event"` with a truthy `eventId` the Router issues the
single-entity fetch, whose upstream call carries the identifier and nothing
else (so the call is the same for any two argument bags agreeing on
`eventId`); with a falsy `eventId` it issues the event search forwarding the
filter fields. -/
theorem claim_C2 (args : ToolArgs) (ht : args.type = some "event") :
    (strTruthy args.eventId = true →
      route args = .ok (.getEvent (args.eventId.getD "")) ∧
      (∀ args2 : ToolArgs, args2.type = some "event" →
        args2.eventId = args.eventId → route args2 = route args)) ∧
    (strTruthy args.eventId = false →
      route args = .ok (.searchEvents (eventSearchOf args))) := by
  constructor
  · intro hid
    constructor
    · simp [route, ht, hid]
    · intro args2 ht2 hid2
      simp [route, ht, ht2, hid2, hid]
  · intro hid
    simp [route, ht, hid]

/-- Witness for C2: a concrete fetch (identical for different filter bags)
and a concrete search. -/
theorem claim_C2_w :
    route { type := some "event", eventId := some "E1", keyword := some "k",
            city := some "NYC" } = .ok (.getEvent "E1") ∧
    route { type := some "event", eventId := some "E1", keyword := some "k",
            city := some "NYC" } =
      route { type := some "event", eventId := some "E1" } ∧
    route { type := some "event", keyword := some "k" } =
      .ok (.searchEvents (eventSearchOf
        { type := some "event", keyword := some "k" })) := by
  refine ⟨?_, ?_, ?_⟩
  · exact ((claim_C2 _ rfl).1 (by decide)).1
  · exact ((claim_C2 { type := some "event", eventId := some "E1" } rfl).1
      (by decide)).2 _ rfl rfl
  · exact (claim_C2 _ rfl).2 (by decide)

/-- The arguments of the invalid-kind counterexample. -/
def bogusArgs : ToolArgs := { type := some "bogus" }

/-- An upstream oracle (never actually consulted on the error path). -/
def upNone : UpstreamCall → UpstreamResponse := fun _ => .noResponse

/-- Counterexample to C3 as stated: for `type="bogus"` the surfaced error is
`InternalError`-class, not `InvalidArgument`-class — the router's
`InvalidParams` `McpError` is caught by the handler's own `catch` block
(having neither `response` nor `request`) and re-wrapped as
`ErrorCode.InternalError` with message `Error: MCP error -32602: ...`. -/
theorem claim_C3_cex :
    handleTool bogusArgs upNone =
      .error ⟨.internalError,
        "Error: MCP error -32602: " ++ invalidTypeMsg (some "bogus")⟩ ∧
    ErrorCode.internalError ≠ ErrorCode.invalidParams := by
  exact ⟨rfl, by decide⟩

/-- C3 (amended): for any unrecognized `kind` the invocation fails before any
outbound call (the result does not depend on the upstream oracle) with an
`InternalError`-class error whose message still names the offending value —
the router's `InvalidParams` error is re-wrapped by the generic catch
branch. -/
theorem claim_C3 (args : ToolArgs) (t : String) (ht : args.type = some t)
    (h1 : t ≠ "event") (h2 : t ≠ "venue") (h3 : t ≠ "attraction") :
    (∀ up, handleTool args up =
      .error ⟨.internalError,
        "Error: MCP error -32602: " ++ invalidTypeMsg (some t)⟩) ∧
    route args = .error ⟨.invalidParams, invalidTypeMsg (some t)⟩ ∧
    (∀ up1 up2, handleTool args up1 = handleTool args up2) ∧
    strContains (invalidTypeMsg (some t)) t = true := by
  have hr : route args = .error ⟨.invalidParams, invalidTypeMsg (some t)⟩ := by
    simp [route, ht, h1, h2, h3]
  have hh : ∀ up, handleTool args up =
      .error ⟨.internalError,
        "Error: MCP error -32602: " ++ invalidTypeMsg (some t)⟩ := by
    intro up
    simp [handleTool, tryBody, hr, catchWrap, McpError.jsMessage, ErrorCode.num]
    rfl
  refine ⟨hh, hr, fun up1 up2 => (hh up1).trans (hh up2).symm, ?_⟩
  rw [invalidTypeMsg, strContains]
  simp only [invalidTypeMsg.jsStrShow, String.data_append, List.append_assoc]
  exact hasSubstr_mid _ _ _

/-- Witness for C3 (amended) at `type="bogus"`. -/
theorem claim_C3_w :
    handleTool bogusArgs upNone =
      .error ⟨.internalError,
        "Error: MCP error -32602: " ++ invalidTypeMsg (some "bogus")⟩ ∧
    route bogusArgs = .error ⟨.invalidParams, invalidTypeMsg (some "bogus")⟩ ∧
    strContains (invalidTypeMsg (some "bogus")) "bogus" = true := by
  have h := claim_C3 bogusArgs "bogus" rfl (by decide) (by decide) (by decide)
  exact ⟨h.1 upNone, h.2.1, h.2.2.2⟩

/-- C4: a non-2xx upstream response surfaces as the structured upstream-error
wrap, whose message contains the decimal status code and the upstream body's
`message` field (the status text standing in when that field is absent or
falsy — the `||` in the source). -/
theorem claim_C4 (args : ToolArgs) (up : UpstreamCall → UpstreamResponse)
    (call : UpstreamCall) (status : Nat) (statusText : String) (data : Json)
    (hr : route args = .ok call)
    (hu : up call = .httpError status statusText data) :
    handleTool args up =
      .error ⟨.internalError, upstreamRejectedMsg status statusText data⟩ ∧
    strContains (upstreamRejectedMsg status statusText data)
      (toString status) = true ∧
    (∀ m : String, jget data "message" = some (.str m) → m.isEmpty = false →
      strContains (upstreamRejectedMsg status statusText data) m = true) := by
  refine ⟨?_, upstreamRejectedMsg_contains_status status statusText data, ?_⟩
  · simp [handleTool, tryBody, hr, hu, catchWrap]
  · intro m hm hne
    exact upstreamRejectedMsg_contains_message status statusText data m hm hne

/-- The body of the 404 counter-instance in C4. -/
def data404 : Json := .obj [("message", .str "not found")]

/-- The oracle answering every call with the 404 response. -/
def up404 : UpstreamCall → UpstreamResponse :=
  fun _ => .httpError 404 "Not Found" data404

/-- Witness for C4: a 404 with body `{"message":"not found"}` yields an error
whose message contains `404` and `not found`. -/
theorem claim_C4_w :
    handleTool { type := some "event", eventId := some "E7" } up404 =
      .error ⟨.internalError, upstreamRejectedMsg 404 "Not Found" data404⟩ ∧
    strContains (upstreamRejectedMsg 404 "Not Found" data404) "404" = true ∧
    strContains (upstreamRejectedMsg 404 "Not Found" data404)
      "not found" = true := by
  have h := claim_C4 { type := some "event", eventId := some "E7" } up404
    (.getEvent "E7") 404 "Not Found" data404 rfl rfl
  exact ⟨h.1, h.2.1, h.2.2 "not found" rfl rfl⟩

/-- C9: the five argument fields the handler never destructures (`marketId`,
`onsaleStartDateTime`, `onsaleEndDateTime`, `locale`, `source`) influence
neither the outbound upstream call nor the final result, for any kind and
any upstream behaviour. -/
theorem claim_C9 (args : ToolArgs) (up : UpstreamCall → UpstreamResponse)
    (m o1 o2 l s : Option String) :
    route { args with
            marketId := m, onsaleStartDateTime := o1,
            onsaleEndDateTime := o2, locale := l, source := s } = route args ∧
    handleTool { args with
                 marketId := m, onsaleStartDateTime := o1,
                 onsaleEndDateTime := o2, locale := l, source := s } up =
      handleTool args up := by
  exact ⟨rfl, rfl⟩

/-- C10: an identifier supplied as the empty string is falsy, so it routes to
the multi-result search, for each of the three kinds. -/
theorem claim_C10 (args : ToolArgs) :
    (args.type = some "event" → args.eventId = some "" →
      route args = .ok (.searchEvents (eventSearchOf args))) ∧
    (args.type = some "venue" → args.venueId = some "" →
      route args = .ok (.searchVenues (venueSearchOf args))) ∧
    (args.type = some "attraction" → args.attractionId = some "" →
      route args = .ok (.searchAttractions (attractionSearchOf args))) := by
  have h0 : strTruthy (some ("" : String)) = false := by decide
  refine ⟨fun ht hid => ?_, fun ht hid => ?_, fun ht hid => ?_⟩
  · simp [route, ht, hid, h0]
  · simp [route, ht, hid, h0]
  · simp [route, ht, hid, h0]

/-- Witness for C10 at empty-string identifiers of all three kinds. -/
theorem claim_C10_w :
    route { type := some "event", eventId := some "" } =
      .ok (.searchEvents (eventSearchOf
        { type := some "event", eventId := some "" })) ∧
    route { type := some "venue", venueId := some "" } =
      .ok (.searchVenues (venueSearchOf
        { type := some "venue", venueId := some "" })) ∧
    route { type := some "attraction", attractionId := some "" } =
      .ok (.searchAttractions (attractionSearchOf
        { type := some "attraction", attractionId := some "" })) := by
  refine ⟨?_, ?_, ?_⟩
  · exact (claim_C10 _).1 rfl rfl
  · exact (claim_C10 _).2.1 rfl rfl
  · exact (claim_C10 _).2.2 rfl rfl

/-- Joining a single projection inserts no separator. -/
theorem intercalate_single (sep s : String) : String.intercalate sep [s] = s := rfl

/-- C5: with an embedded collection present, the formatter selects `events`
first, then `venues`, then `attractions`, maps the elements in order through
the matching projection and joins with `"\n\n---\n\n"` (`resultSep`). -/
theorem claim_C5 (t : Option String) (results emb : Json)
    (he : jget results "_embedded" = some emb) (htr : emb.truthy = true) :
    (∀ evs, jget emb "events" = some (Json.arr evs) →
      textBody t results =
        String.intercalate resultSep (evs.map formatEventAsText)) ∧
    (jtruthy (jget emb "events") = false →
      ∀ vs, jget emb "venues" = some (Json.arr vs) →
      textBody t results =
        String.intercalate resultSep (vs.map formatVenueAsText)) ∧
    (jtruthy (jget emb "events") = false →
      jtruthy (jget emb "venues") = false →
      ∀ ats, jget emb "attractions" = some (Json.arr ats) →
      textBody t results =
        String.intercalate resultSep (ats.map formatAttractionAsText)) := by
  have h1 : jtruthy (jget results "_embedded") = true := by
    rw [he, jtruthy, htr]
  have h2 : (jget results "_embedded").getD Json.null = emb := by rw [he]; rfl
  refine ⟨fun evs hev => ?_, fun hne vs hv => ?_, fun hne hnv ats ha => ?_⟩
  · have h3 : jtruthy (jget emb "events") = true := by
      rw [hev]; rfl
    have h4 : jsElems ((jget emb "events").getD Json.null) = evs := by
      rw [hev]; rfl
    simp [textBody, h1, h2, h3, h4]
  · have h3 : jtruthy (jget emb "venues") = true := by
      rw [hv]; rfl
    have h4 : jsElems ((jget emb "venues").getD Json.null) = vs := by
      rw [hv]; rfl
    simp [textBody, h1, h2, h3, h4, hne]
  · have h3 : jtruthy (jget emb "attractions") = true := by
      rw [ha]; rfl
    have h4 : jsElems ((jget emb "attractions").getD Json.null) = ats := by
      rw [ha]; rfl
    simp [textBody, h1, h2, h3, h4, hne, hnv]

/-- First venue of the two-venue witness response. -/
def venueA : Json := .obj [("name", .str "Arena A"), ("id", .str "V1")]

/-- Second venue of the two-venue witness response. -/
def venueB : Json := .obj [("name", .str "Arena B"), ("id", .str "V2")]

/-- A search response embedding exactly two venues. -/
def searchBody2V : Json :=
  .obj [("_embedded", .obj [("venues", .arr [venueA, venueB])])]

/-- Witness for C5: two embedded venues produce both projections, in order,
joined by the separator. -/
theorem claim_C5_w :
    textBody (some "venue") searchBody2V =
      String.intercalate resultSep
        [formatVenueAsText venueA, formatVenueAsText venueB] ∧
    String.intercalate resultSep
        [formatVenueAsText venueA, formatVenueAsText venueB] =
      formatVenueAsText venueA ++ ("\n\n---\n\n" ++ formatVenueAsText venueB) := by
  refine ⟨?_, ?_⟩
  · exact (claim_C5 (some "venue") searchBody2V _ rfl rfl).2.1 (by decide)
      [venueA, venueB] rfl
  · rfl

/-- C6: an event with no start block, no embedded venues, no price ranges and
no URL projects to exactly the single header line. -/
theorem claim_C6 (e : Json) (nm ident : String)
    (hn : jget e "name" = some (.str nm)) (hi : jget e "id" = some (.str ident))
    (hd : jtruthy ((jget e "dates").bind (fun d => jget d "start")) = false)
    (hv : (jtruthy ((jget e "_embedded").bind (fun m => jget m "venues")) &&
      jsLenPos (((jget e "_embedded").bind
        (fun m => jget m "venues")).getD Json.null)) = false)
    (hp : (jtruthy (jget e "priceRanges") &&
      jsLenPos ((jget e "priceRanges").getD Json.null)) = false)
    (hu : jtruthy (jget e "url") = false) :
    formatEventAsText e = "Event: " ++ nm ++ " (ID: " ++ ident ++ ")" := by
  rw [formatEventAsText]
  simp only [hd, hv, hp, hu, Bool.false_eq_true, if_false]
  rw [hn, hi, intercalate_single]
  simp [jsShow, jsDisplay]

/-- Witness for C6 at a concrete bare event. -/
theorem claim_C6_w :
    formatEventAsText (.obj [("name", .str "Concert"), ("id", .str "E1")]) =
      "Event: Concert (ID: E1)" := by
  exact claim_C6 (.obj [("name", .str "Concert"), ("id", .str "E1")])
    "Concert" "E1" rfl rfl (by decide) (by decide) (by decide) (by decide)

/-- C8: whenever the body carries a truthy `_embedded` wrapper the request
kind does not influence the text output at all; without the wrapper the kind
alone selects the projection. -/
theorem claim_C8 (results : Json) :
    (∀ t1 t2, jtruthy (jget results "_embedded") = true →
      textBody t1 results = textBody t2 results) ∧
    (jtruthy (jget results "_embedded") = false → ∀ t,
      textBody t results =
        (if t = some "event" then formatEventAsText results
         else if t = some "venue" then formatVenueAsText results
         else if t = some "attraction" then formatAttractionAsText results
         else "")) := by
  constructor
  · intro t1 t2 h
    simp [textBody, h]
  · intro h t
    simp [textBody, h]

/-- Witness for C8: with a wrapper present, `kind="event"` and
`kind="attraction"` format identically; without one, the kind picks the
projection. -/
theorem claim_C8_w :
    textBody (some "event") searchBody2V =
      textBody (some "attraction") searchBody2V ∧
    textBody (some "venue") venueA = formatVenueAsText venueA := by
  constructor
  · exact (claim_C8 searchBody2V).1 (some "event") (some "attraction") (by decide)
  · exact ((claim_C8 venueA).2 (by decide) (some "venue")).trans (by decide)

/-- The decimal digit character of `n < 10` is a digit and carries `n`. -/
theorem digChar_spec (n : Nat) (h : n < 10) :
    isDig (Char.ofNat (48 + n)) = true ∧ digVal (Char.ofNat (48 + n)) = n := by
  interval_cases n <;> exact ⟨by decide, by decide⟩

/-- A digit character's code point lies between 48 and 57. -/
theorem isDig_bounds (c : Char) (h : isDig c = true) :
    48 ≤ c.toNat ∧ c.toNat ≤ 57 := by
  rw [isDig, Bool.and_eq_true, decide_eq_true_eq, decide_eq_true_eq] at h
  exact h

/-- A digit character is none of the characters the value parser dispatches
on, is no whitespace, and closes no bracket. -/
theorem isDig_ne (c : Char) (h : isDig c = true) :
    c ≠ 'n' ∧ c ≠ 't' ∧ c ≠ 'f' ∧ c ≠ '"' ∧ c ≠ '[' ∧ c ≠ '\x7b' ∧
    c ≠ '-' ∧ isWs c = false ∧ c ≠ ']' ∧ c ≠ '\x7d' ∧ c ≠ ',' ∧ c ≠ ':' := by
  have hb := isDig_bounds c h
  refine ⟨?_, ?_, ?_, ?_, ?_, ?_, ?_, ?_, ?_, ?_, ?_, ?_⟩
  all_goals first
    | (rintro rfl; revert hb; decide)
    | (cases hw : isWs c with
       | false => rfl
       | true =>
         rw [isWs] at hw
         simp only [Bool.or_eq_true, decide_eq_true_eq] at hw
         rcases hw with ((rfl | rfl) | rfl) | rfl <;> (revert hb; decide))

/-- `skipWs` leaves a non-whitespace head alone. -/
theorem skipWs_not (c : Char) (r : List Char) (h : isWs c = false) :
    skipWs (c :: r) = c :: r := by
  rw [skipWs, h]; rfl

/-- `skipWs` absorbs a whitespace head. -/
theorem skipWs_ws (c : Char) (r : List Char) (h : isWs c = true) :
    skipWs (c :: r) = skipWs r := by
  rw [skipWs, h]; rfl

/-- `skipWs` jumps over a run of spaces. -/
theorem skipWs_spaces (n : Nat) (r : List Char) :
    skipWs (spacesChars n ++ r) = skipWs r := by
  induction n with
  | zero => rfl
  | succ k ih =>
    rw [spacesChars, List.replicate_succ, List.cons_append,
      skipWs_ws _ _ (by decide)]
    exact ih

/-- `skipWs` is idempotent. -/
theorem skipWs_skipWs (l : List Char) : skipWs (skipWs l) = skipWs l := by
  induction l with
  | nil => rfl
  | cons c r ih =>
    cases hw : isWs c with
    | true => rw [skipWs_ws _ _ hw]; exact ih
    | false => rw [skipWs_not _ _ hw, skipWs_not _ _ hw]

/-- Dropping a literal from itself plus a remainder succeeds. -/
theorem dropLit_append (lit r : List Char) : dropLit lit (lit ++ r) = some r := by
  induction lit with
  | nil => rfl
  | cons c cs ih => simp [dropLit, ih]

/-- The digit run of `n` is nonempty and begins with a digit. -/
theorem natChars_cons (n : Nat) :
    ∃ c t, natChars n = c :: t ∧ isDig c = true := by
  induction n using Nat.strong_induction_on with
  | _ n ih =>
    rw [natChars]
    by_cases h : n < 10
    · exact ⟨_, _, by rw [if_pos h], (digChar_spec n h).1⟩
    · obtain ⟨c, t, hct, hc⟩ := ih (n / 10) (Nat.div_lt_self (by omega) (by omega))
      exact ⟨c, t ++ [Char.ofNat (48 + n % 10)], by rw [if_neg h, hct]; rfl, hc⟩

/-- Consuming the printed digits of `n` multiplies the accumulator past them
and adds `n`. -/
theorem grabDigits_natChars (n : Nat) : ∀ (acc : Nat) (rest : List Char),
    grabDigits acc (natChars n ++ rest) =
      grabDigits (acc * 10 ^ (natChars n).length + n) rest := by
  induction n using Nat.strong_induction_on with
  | _ n ih =>
    intro acc rest
    by_cases h : n < 10
    · rw [natChars, if_pos h]
      obtain ⟨hd, hv⟩ := digChar_spec n h
      simp [grabDigits, hd, hv]
    · obtain ⟨hd, hv⟩ := digChar_spec (n % 10) (Nat.mod_lt _ (by omega))
      have hstep : natChars n =
          natChars (n / 10) ++ [Char.ofNat (48 + n % 10)] := by
        rw [natChars, if_neg h]
      rw [hstep, List.append_assoc, List.cons_append, List.nil_append,
        ih (n / 10) (Nat.div_lt_self (by omega) (by omega))]
      simp only [grabDigits, hd, hv, if_true]
      simp only [List.length_append, List.length_cons, List.length_nil]
      congr 1
      have hdm := Nat.div_add_mod n 10
      rw [pow_succ, ← mul_assoc]
      set B := acc * 10 ^ (natChars (n / 10)).length
      omega

/-- Whether the input begins with a decimal digit (which could extend a
printed number). -/
def leadDig : List Char → Bool
  | [] => false
  | c :: _ => isDig c

/-- `grabDigits` stops at a non-digit (or the end). -/
theorem grabDigits_stop (acc : Nat) (rest : List Char)
    (h : leadDig rest = false) : grabDigits acc rest = (acc, rest) := by
  cases rest with
  | nil => rfl
  | cons c t =>
    rw [leadDig] at h
    rw [grabDigits, h]
    rfl

/-- Parsing the printed decimal form of an integer recovers it, whenever the
remainder cannot extend the digit run. -/
theorem parseNum_intChars (n : Int) (rest : List Char)
    (hr : leadDig rest = false) :
    parseNum (intChars n ++ rest) = some (.num n, rest) := by
  have habs : grabDigits 0 (natChars n.natAbs ++ rest) = (n.natAbs, rest) := by
    rw [grabDigits_natChars, grabDigits_stop _ _ hr]
    simp
  obtain ⟨c, t, hct, hc⟩ := natChars_cons n.natAbs
  have hg : grabDigits 0 (c :: (t ++ rest)) = (n.natAbs, rest) := by
    rw [← List.cons_append, ← hct]
    exact habs
  by_cases hn : n < 0
  · rw [intChars, if_pos hn, List.cons_append, hct, List.cons_append]
    simp only [parseNum, if_pos rfl, hc, if_true, hg]
    have hcast : (↑n.natAbs : Int) = -n :=
      Int.ofNat_natAbs_of_nonpos (le_of_lt hn)
    rw [hcast, neg_neg]
  · rw [intChars, if_neg hn, hct, List.cons_append]
    have hcm := (isDig_ne c hc).2.2.2.2.2.2.1
    simp only [parseNum, if_neg hcm, hc, if_true, hg]
    have hcast : (↑n.natAbs : Int) = n :=
      Int.natAbs_of_nonneg (le_of_not_lt hn)
    rw [hcast]

/-- `hexVal` inverts `hexDigitChar` on a single nibble. -/
theorem hexVal_hexDigitChar (k : Nat) (h : k < 16) :
    hexVal (hexDigitChar k) = some k := by
  interval_cases k <;> decide

/-- Parsing one escaped character prepends exactly that character. -/
theorem parseStrBody_esc (c : Char) (rest : List Char) :
    parseStrBody (escChar c ++ rest) =
      (parseStrBody rest).map (fun p => (c :: p.1, p.2)) := by
  rw [escChar]
  by_cases h1 : c = '"'
  · subst h1; rw [if_pos rfl]; simp [parseStrBody, parseEsc, unescapeChar]
  rw [if_neg h1]
  by_cases h2 : c = '\\'
  · subst h2; rw [if_pos rfl]; simp [parseStrBody, parseEsc, unescapeChar]
  rw [if_neg h2]
  by_cases h3 : c = '\n'
  · subst h3; rw [if_pos rfl]; simp [parseStrBody, parseEsc, unescapeChar]
  rw [if_neg h3]
  by_cases h4 : c = '\t'
  · subst h4; rw [if_pos rfl]; simp [parseStrBody, parseEsc, unescapeChar]
  rw [if_neg h4]
  by_cases h5 : c = '\r'
  · subst h5; rw [if_pos rfl]; simp [parseStrBody, parseEsc, unescapeChar]
  rw [if_neg h5]
  by_cases h6 : c = '\x08'
  · subst h6; rw [if_pos rfl]; simp [parseStrBody, parseEsc, unescapeChar]
  rw [if_neg h6]
  by_cases h7 : c = '\x0c'
  · subst h7; rw [if_pos rfl]; simp [parseStrBody, parseEsc, unescapeChar]
  rw [if_neg h7]
  by_cases h8 : c.toNat < 32
  · rw [if_pos h8]
    have hh : hexVal (hexDigitChar (c.toNat / 16)) = some (c.toNat / 16) :=
      hexVal_hexDigitChar _ (by omega)
    have hl : hexVal (hexDigitChar (c.toNat % 16)) = some (c.toNat % 16) :=
      hexVal_hexDigitChar _ (Nat.mod_lt _ (by omega))
    simp only [List.cons_append, List.nil_append, parseStrBody, parseEsc,
      parseHexEsc, if_neg (by decide : ¬('\\' : Char) = '"'), if_pos rfl,
      if_pos (rfl : ('u' : Char) = 'u'), hh, hl]
    have h0 : hexVal '0' = some 0 := by decide
    have harith : c.toNat / 16 * 16 + c.toNat % 16 = c.toNat :=
      Nat.div_add_mod' _ _
    simp [h0, harith, Char.ofNat_toNat]
  · rw [if_neg h8]
    rw [List.cons_append, List.nil_append]
    simp only [parseStrBody]
    rw [if_neg h1, if_neg h2]

/-- Parsing an escaped string body up to its closing quote recovers it. -/
theorem parseStrBody_escList (s : List Char) : ∀ rest : List Char,
    parseStrBody (escList s ++ '"' :: rest) = some (s, rest) := by
  induction s with
  | nil => intro rest; simp [escList, parseStrBody]
  | cons c cs ih =>
    intro rest
    rw [escList, List.append_assoc, parseStrBody_esc, ih]
    rfl

/-- The characters a printed value can begin with. -/
def startChar (c : Char) : Bool :=
  c = 'n' || c = 't' || c = 'f' || c = '"' || c = '[' || c = '\x7b' ||
    c = '-' || isDig c

/-- A start character is no whitespace and closes no bracket. -/
theorem startChar_facts (c : Char) (h : startChar c = true) :
    isWs c = false ∧ c ≠ ']' ∧ c ≠ '\x7d' := by
  rw [startChar] at h
  simp only [Bool.or_eq_true, decide_eq_true_eq] at h
  rcases h with ((((((rfl | rfl) | rfl) | rfl) | rfl) | rfl) | rfl) | hd
  · exact ⟨by decide, by decide, by decide⟩
  · exact ⟨by decide, by decide, by decide⟩
  · exact ⟨by decide, by decide, by decide⟩
  · exact ⟨by decide, by decide, by decide⟩
  · exact ⟨by decide, by decide, by decide⟩
  · exact ⟨by decide, by decide, by decide⟩
  · exact ⟨by decide, by decide, by decide⟩
  · obtain ⟨_, _, _, _, _, _, _, hw, hb1, hb2, _, _⟩ := isDig_ne c hd
    exact ⟨hw, hb1, hb2⟩

/-- Every printed value begins with a start character. -/
theorem printVal_head (ind : Nat) (j : Json) :
    ∃ c t, printVal ind j = c :: t ∧ startChar c = true := by
  cases j with
  | null => exact ⟨'n', _, by rw [printVal], by decide⟩
  | bool b =>
    cases b with
    | false => exact ⟨'f', _, by rw [printVal], by decide⟩
    | true => exact ⟨'t', _, by rw [printVal], by decide⟩
  | num n =>
    by_cases hn : n < 0
    · exact ⟨'-', natChars n.natAbs, by rw [printVal, intChars, if_pos hn],
        by decide⟩
    · obtain ⟨c, t, hct, hc⟩ := natChars_cons n.natAbs
      refine ⟨c, t, by rw [printVal, intChars, if_neg hn, hct], ?_⟩
      rw [startChar, hc]
      simp
  | str s => exact ⟨'"', _, by rw [printVal], by decide⟩
  | arr es =>
    cases es with
    | nil => exact ⟨'[', _, by rw [printVal], by decide⟩
    | cons x xs => exact ⟨'[', _, by rw [printVal], by decide⟩
  | obj fs =>
    cases fs with
    | nil => exact ⟨'\x7b', _, by rw [printVal], by decide⟩
    | cons f fs =>
      obtain ⟨k, v⟩ := f
      exact ⟨'\x7b', _, by rw [printVal], by decide⟩

/-- Skipping whitespace before a parse changes nothing: values. -/
theorem parseVal_skipWs (fuel : Nat) (cs : List Char) :
    parseVal fuel (skipWs cs) = parseVal fuel cs := by
  cases fuel with
  | zero => rfl
  | succ f =>
    simp only [parseVal]
    rw [skipWs_skipWs]

/-- Skipping whitespace before a parse changes nothing: array elements. -/
theorem parseItems_skipWs (fuel : Nat) (cs : List Char) :
    parseItems fuel (skipWs cs) = parseItems fuel cs := by
  cases fuel with
  | zero => rfl
  | succ f =>
    simp only [parseItems]
    rw [parseVal_skipWs]

/-- Skipping whitespace before a parse changes nothing: object members. -/
theorem parseFields_skipWs (fuel : Nat) (cs : List Char) :
    parseFields fuel (skipWs cs) = parseFields fuel cs := by
  cases fuel with
  | zero => rfl
  | succ f =>
    simp only [parseFields]
    rw [skipWs_skipWs]

/-- A run of spaces in front of a value parse is ignored. -/
theorem parseVal_spaces (fuel n : Nat) (cs : List Char) :
    parseVal fuel (spacesChars n ++ cs) = parseVal fuel cs := by
  rw [← parseVal_skipWs fuel (spacesChars n ++ cs), skipWs_spaces,
    parseVal_skipWs]

/-- A leading newline in front of a value parse is ignored. -/
theorem parseVal_nl (fuel : Nat) (cs : List Char) :
    parseVal fuel ('\n' :: cs) = parseVal fuel cs := by
  rw [← parseVal_skipWs fuel ('\n' :: cs), skipWs_ws _ _ (by decide),
    parseVal_skipWs]

/-- A leading space in front of a value parse is ignored. -/
theorem parseVal_sp (fuel : Nat) (cs : List Char) :
    parseVal fuel (' ' :: cs) = parseVal fuel cs := by
  rw [← parseVal_skipWs fuel (' ' :: cs), skipWs_ws _ _ (by decide),
    parseVal_skipWs]

/-- A leading newline in front of an element parse is ignored. -/
theorem parseItems_nl (fuel : Nat) (cs : List Char) :
    parseItems fuel ('\n' :: cs) = parseItems fuel cs := by
  rw [← parseItems_skipWs fuel ('\n' :: cs), skipWs_ws _ _ (by decide),
    parseItems_skipWs]

/-- A leading newline in front of a member parse is ignored. -/
theorem parseFields_nl (fuel : Nat) (cs : List Char) :
    parseFields fuel ('\n' :: cs) = parseFields fuel cs := by
  rw [← parseFields_skipWs fuel ('\n' :: cs), skipWs_ws _ _ (by decide),
    parseFields_skipWs]

/-- A value parse whose input starts with a sign or digit goes through
`parseNum`. -/
theorem parseVal_num_dispatch (f : Nat) (c : Char) (t : List Char)
    (hws : isWs c = false) (hn : c ≠ 'n') (ht : c ≠ 't') (hf : c ≠ 'f')
    (hq : c ≠ '"') (hk : c ≠ '[') (hb : c ≠ '\x7b')
    (hg : (c = '-' || isDig c) = true) :
    parseVal (f + 1) (c :: t) = parseNum (c :: t) := by
  simp only [parseVal]
  rw [skipWs_not _ _ hws]
  simp only [if_neg hn, if_neg ht, if_neg hf, if_neg hq, if_neg hk, if_neg hb]
  rw [hg]
  simp

/-- Length of a one-element-line block. -/
theorem printItemsL_nil_len (ind : Nat) (x : Json) :
    (printItemsL ind x []).length = ind + (printVal ind x).length := by
  rw [printItemsL]
  simp [spacesChars]

/-- Length of a multi-element block. -/
theorem printItemsL_cons_len (ind : Nat) (x y : Json) (ys : List Json) :
    (printItemsL ind x (y :: ys)).length =
      ind + (printVal ind x).length + 2 + (printItemsL ind y ys).length := by
  rw [printItemsL]
  simp [spacesChars]
  omega

/-- Length of a one-member-line block. -/
theorem printFieldsL_nil_len (ind : Nat) (k : String) (v : Json) :
    (printFieldsL ind k v []).length =
      ind + (escList k.data).length + 4 + (printVal ind v).length := by
  rw [printFieldsL]
  simp [spacesChars]
  omega

/-- Length of a multi-member block. -/
theorem printFieldsL_cons_len (ind : Nat) (k : String) (v : Json)
    (k2 : String) (v2 : Json) (gs : List (String × Json)) :
    (printFieldsL ind k v ((k2, v2) :: gs)).length =
      ind + (escList k.data).length + 4 + (printVal ind v).length + 2 +
        (printFieldsL ind k2 v2 gs).length := by
  rw [printFieldsL]
  simp [spacesChars]
  omega

/-- The value parser's array branch, isolated. -/
theorem parseVal_arr_dispatch (f : Nat) (r : List Char) :
    parseVal (f + 1) ('[' :: r) =
      (match skipWs r with
       | [] => none
       | c2 :: r2 =>
         if c2 = ']' then some (Json.arr [], r2)
         else (parseItems f (c2 :: r2)).map (fun p => (Json.arr p.1, p.2))) := by
  simp only [parseVal]
  rw [skipWs_not _ _ (by decide)]
  simp +decide

/-- The value parser's object branch, isolated. -/
theorem parseVal_obj_dispatch (f : Nat) (r : List Char) :
    parseVal (f + 1) ('\x7b' :: r) =
      (match skipWs r with
       | [] => none
       | c2 :: r2 =>
         if c2 = '\x7d' then some (Json.obj [], r2)
         else (parseFields f (c2 :: r2)).map (fun p => (Json.obj p.1, p.2))) := by
  simp only [parseVal]
  rw [skipWs_not _ _ (by decide)]
  simp +decide

/-- After whitespace, a printed element block begins with a start character. -/
theorem skipWs_printItemsL (ind : Nat) (x : Json) (xs : List Json)
    (T : List Char) :
    ∃ c r2, skipWs (printItemsL ind x xs ++ T) = c :: r2 ∧
      startChar c = true := by
  obtain ⟨c0, t0, hct, hc0⟩ := printVal_head ind x
  obtain ⟨hw0, _, _⟩ := startChar_facts c0 hc0
  cases xs with
  | nil =>
    refine ⟨c0, t0 ++ T, ?_, hc0⟩
    rw [printItemsL, hct]
    simp only [List.append_nil, List.append_assoc, List.cons_append]
    rw [skipWs_spaces, skipWs_not _ _ hw0]
  | cons y ys =>
    refine ⟨c0, t0 ++ ((',' :: '\n' :: printItemsL ind y ys) ++ T), ?_, hc0⟩
    rw [printItemsL, hct]
    simp only [List.append_assoc, List.cons_append]
    rw [skipWs_spaces, skipWs_not _ _ hw0]

/-- After whitespace, a printed member block begins with its key's quote. -/
theorem skipWs_printFieldsL (ind : Nat) (k : String) (v : Json)
    (fs : List (String × Json)) (T : List Char) :
    ∃ r2, skipWs (printFieldsL ind k v fs ++ T) = '"' :: r2 := by
  cases fs with
  | nil =>
    refine ⟨(escList k.data ++ ('"' :: ':' :: ' ' :: printVal ind v)) ++ T, ?_⟩
    rw [printFieldsL]
    simp only [List.append_nil, List.append_assoc, List.cons_append]
    rw [skipWs_spaces, skipWs_not _ _ (by decide)]
  | cons g gs =>
    obtain ⟨k2, v2⟩ := g
    refine ⟨(escList k.data ++ ('"' :: ':' :: ' ' :: printVal ind v)) ++
      ((',' :: '\n' :: printFieldsL ind k2 v2 gs) ++ T), ?_⟩
    rw [printFieldsL]
    simp only [List.append_assoc, List.cons_append]
    rw [skipWs_spaces, skipWs_not _ _ (by decide)]

mutual
/-- Round-trip, values: parsing a printed value (with enough fuel, and a
remainder that cannot extend a digit run) recovers it exactly. -/
theorem rt_val : ∀ (j : Json) (ind fuel : Nat) (rest : List Char),
    (printVal ind j).length < fuel → leadDig rest = false →
    parseVal fuel (printVal ind j ++ rest) = some (j, rest)
  | .null, ind, fuel, rest, hf, _ => by
    rw [printVal] at hf ⊢
    cases fuel with
    | zero => simp at hf
    | succ f => simp +decide [parseVal, skipWs, isWs, dropLit]
  | .bool true, ind, fuel, rest, hf, _ => by
    rw [printVal] at hf ⊢
    cases fuel with
    | zero => simp at hf
    | succ f => simp +decide [parseVal, skipWs, isWs, dropLit]
  | .bool false, ind, fuel, rest, hf, _ => by
    rw [printVal] at hf ⊢
    cases fuel with
    | zero => simp at hf
    | succ f => simp +decide [parseVal, skipWs, isWs, dropLit]
  | .num n, ind, fuel, rest, hf, hr => by
    rw [printVal] at hf ⊢
    cases fuel with
    | zero => omega
    | succ f =>
      by_cases hn : n < 0
      · have harg : intChars n ++ rest = '-' :: (natChars n.natAbs ++ rest) := by
          rw [intChars, if_pos hn]
          rfl
        rw [harg, parseVal_num_dispatch f '-' _ rfl (by decide) (by decide)
          (by decide) (by decide) (by decide) (by decide) rfl,
          ← harg, parseNum_intChars n rest hr]
      · obtain ⟨c, t, hct, hc⟩ := natChars_cons n.natAbs
        have harg : intChars n ++ rest = c :: (t ++ rest) := by
          rw [intChars, if_neg hn, hct]
          rfl
        obtain ⟨hN, hT, hF, hQ, hK, hB, hM, hW, _, _, _, _⟩ := isDig_ne c hc
        rw [harg, parseVal_num_dispatch f c _ hW hN hT hF hQ hK hB
          (by rw [hc]; simp), ← harg, parseNum_intChars n rest hr]
  | .str s, ind, fuel, rest, hf, _ => by
    rw [printVal] at hf ⊢
    cases fuel with
    | zero => omega
    | succ f =>
      have harg : ('"' :: (escList s.data ++ ['"'])) ++ rest =
          '"' :: (escList s.data ++ ('"' :: rest)) := by
        simp
      rw [harg]
      simp only [parseVal]
      rw [skipWs_not _ _ (by decide)]
      simp +decide [parseStrBody_escList]
  | .arr [], ind, fuel, rest, hf, _ => by
    rw [printVal] at hf ⊢
    cases fuel with
    | zero => simp at hf
    | succ f => simp +decide [parseVal, skipWs, isWs]
  | .arr (x :: xs), ind, fuel, rest, hf, _ => by
    cases fuel with
    | zero => exact absurd hf (by omega)
    | succ f =>
      have hlen : (printVal ind (.arr (x :: xs))).length =
          (printItemsL (ind + 2) x xs).length + ind + 4 := by
        rw [printVal]
        simp [spacesChars]
        omega
      have harg : printVal ind (.arr (x :: xs)) ++ rest =
          '[' :: ('\n' :: (printItemsL (ind + 2) x xs ++
            ('\n' :: (spacesChars ind ++ (']' :: rest))))) := by
        rw [printVal]
        simp [List.append_assoc]
      obtain ⟨c0, r0, hskip, hc0⟩ := skipWs_printItemsL (ind + 2) x xs
        ('\n' :: (spacesChars ind ++ (']' :: rest)))
      have hskip2 : skipWs ('\n' :: (printItemsL (ind + 2) x xs ++
          ('\n' :: (spacesChars ind ++ (']' :: rest))))) = c0 :: r0 := by
        rw [skipWs_ws _ _ (by decide)]
        exact hskip
      have hback : parseItems f (c0 :: r0) =
          parseItems f (printItemsL (ind + 2) x xs ++
            ('\n' :: (spacesChars ind ++ (']' :: rest)))) := by
        rw [← hskip, parseItems_skipWs]
      have hfi : (printItemsL (ind + 2) x xs).length + 1 < f := by
        rw [hlen] at hf
        omega
      rw [harg, parseVal_arr_dispatch, hskip2]
      simp only [if_neg (startChar_facts c0 hc0).2.1]
      rw [hback, rt_items x xs (ind + 2) ind f rest hfi]
      rfl
  | .obj [], ind, fuel, rest, hf, _ => by
    rw [printVal] at hf ⊢
    cases fuel with
    | zero => simp at hf
    | succ f => simp +decide [parseVal, skipWs, isWs]
  | .obj ((k, v) :: fs), ind, fuel, rest, hf, _ => by
    cases fuel with
    | zero => exact absurd hf (by omega)
    | succ f =>
      have hlen : (printVal ind (.obj ((k, v) :: fs))).length =
          (printFieldsL (ind + 2) k v fs).length + ind + 4 := by
        rw [printVal]
        simp [spacesChars]
        omega
      have harg : printVal ind (.obj ((k, v) :: fs)) ++ rest =
          '\x7b' :: ('\n' :: (printFieldsL (ind + 2) k v fs ++
            ('\n' :: (spacesChars ind ++ ('\x7d' :: rest))))) := by
        rw [printVal]
        simp [List.append_assoc]
      obtain ⟨r0, hskip⟩ := skipWs_printFieldsL (ind + 2) k v fs
        ('\n' :: (spacesChars ind ++ ('\x7d' :: rest)))
      have hskip2 : skipWs ('\n' :: (printFieldsL (ind + 2) k v fs ++
          ('\n' :: (spacesChars ind ++ ('\x7d' :: rest))))) = '"' :: r0 := by
        rw [skipWs_ws _ _ (by decide)]
        exact hskip
      have hback : parseFields f ('"' :: r0) =
          parseFields f (printFieldsL (ind + 2) k v fs ++
            ('\n' :: (spacesChars ind ++ ('\x7d' :: rest)))) := by
        rw [← hskip, parseFields_skipWs]
      have hfi : (printFieldsL (ind + 2) k v fs).length + 1 < f := by
        rw [hlen] at hf
        omega
      rw [harg, parseVal_obj_dispatch, hskip2]
      simp only [if_neg (by decide : ¬('"' : Char) = '\x7d')]
      rw [hback, rt_fields k v fs (ind + 2) ind f rest hfi]
      rfl
termination_by j _ _ _ _ _ => sizeOf j
decreasing_by all_goals simp_arith
/-- Round-trip, nonempty array bodies. -/
theorem rt_items : ∀ (x : Json) (xs : List Json) (ind pind fuel : Nat)
    (rest : List Char),
    (printItemsL ind x xs).length + 1 < fuel →
    parseItems fuel (printItemsL ind x xs ++
      ('\n' :: (spacesChars pind ++ (']' :: rest)))) = some (x :: xs, rest)
  | x, [], ind, pind, fuel, rest, hf => by
    cases fuel with
    | zero => omega
    | succ f =>
      have hfx : (printVal ind x).length < f := by
        rw [printItemsL_nil_len] at hf
        omega
      have hlead : leadDig ('\n' :: (spacesChars pind ++ (']' :: rest))) =
          false := by
        rw [leadDig]
        decide
      have hv := rt_val x ind f ('\n' :: (spacesChars pind ++ (']' :: rest)))
        hfx hlead
      rw [printItemsL]
      simp only [List.append_nil, List.append_assoc, List.nil_append]
      simp only [parseItems]
      rw [parseVal_spaces, hv]
      simp only [Option.some_bind]
      rw [skipWs_ws _ _ (by decide), skipWs_spaces, skipWs_not _ _ (by decide)]
      simp +decide
  | x, y :: ys, ind, pind, fuel, rest, hf => by
    cases fuel with
    | zero => omega
    | succ f =>
      have hfx : (printVal ind x).length < f := by
        rw [printItemsL_cons_len] at hf
        omega
      have hfy : (printItemsL ind y ys).length + 1 < f := by
        rw [printItemsL_cons_len] at hf
        omega
      have hlead : leadDig (',' :: ('\n' :: (printItemsL ind y ys ++
          ('\n' :: (spacesChars pind ++ (']' :: rest)))))) = false := by
        rw [leadDig]
        decide
      have hv := rt_val x ind f (',' :: ('\n' :: (printItemsL ind y ys ++
        ('\n' :: (spacesChars pind ++ (']' :: rest)))))) hfx hlead
      have hrec := rt_items y ys ind pind f rest hfy
      rw [printItemsL]
      simp only [List.append_assoc, List.cons_append]
      simp only [parseItems]
      rw [parseVal_spaces, hv]
      simp only [Option.some_bind]
      rw [skipWs_not _ _ (by decide)]
      simp +decide [parseItems_nl, hrec]
termination_by x xs _ _ _ _ _ => sizeOf x + sizeOf xs
decreasing_by all_goals simp_arith
/-- Round-trip, nonempty object bodies. -/
theorem rt_fields : ∀ (k : String) (v : Json) (fs : List (String × Json))
    (ind pind fuel : Nat) (rest : List Char),
    (printFieldsL ind k v fs).length + 1 < fuel →
    parseFields fuel (printFieldsL ind k v fs ++
      ('\n' :: (spacesChars pind ++ ('\x7d' :: rest)))) =
      some ((k, v) :: fs, rest)
  | k, v, [], ind, pind, fuel, rest, hf => by
    cases fuel with
    | zero => omega
    | succ f =>
      have hfv : (printVal ind v).length < f := by
        rw [printFieldsL_nil_len] at hf
        omega
      have hlead : leadDig ('\n' :: (spacesChars pind ++ ('\x7d' :: rest))) =
          false := by
        rw [leadDig]
        decide
      have hv := rt_val v ind f ('\n' :: (spacesChars pind ++ ('\x7d' :: rest)))
        hfv hlead
      rw [printFieldsL]
      simp only [List.append_assoc, List.cons_append, List.nil_append]
      simp only [parseFields]
      rw [skipWs_spaces, skipWs_not _ _ (by decide)]
      simp only [if_pos rfl]
      rw [parseStrBody_escList]
      simp only [Option.some_bind]
      rw [skipWs_not _ _ (by decide)]
      simp only [if_pos rfl]
      rw [parseVal_sp, hv]
      simp only [Option.some_bind]
      rw [skipWs_ws _ _ (by decide), skipWs_spaces, skipWs_not _ _ (by decide)]
      simp +decide
  | k, v, (k2, v2) :: gs, ind, pind, fuel, rest, hf => by
    cases fuel with
    | zero => omega
    | succ f =>
      have hfv : (printVal ind v).length < f := by
        rw [printFieldsL_cons_len] at hf
        omega
      have hfg : (printFieldsL ind k2 v2 gs).length + 1 < f := by
        rw [printFieldsL_cons_len] at hf
        omega
      have hlead : leadDig (',' :: ('\n' :: (printFieldsL ind k2 v2 gs ++
          ('\n' :: (spacesChars pind ++ ('\x7d' :: rest)))))) = false := by
        rw [leadDig]
        decide
      have hv := rt_val v ind f (',' :: ('\n' :: (printFieldsL ind k2 v2 gs ++
        ('\n' :: (spacesChars pind ++ ('\x7d' :: rest)))))) hfv hlead
      have hrec := rt_fields k2 v2 gs ind pind f rest hfg
      rw [printFieldsL]
      simp only [List.append_assoc, List.cons_append]
      simp only [parseFields]
      rw [skipWs_spaces, skipWs_not _ _ (by decide)]
      simp only [if_pos rfl]
      rw [parseStrBody_escList]
      simp only [Option.some_bind]
      rw [skipWs_not _ _ (by decide)]
      simp only [if_pos rfl]
      rw [parseVal_sp, hv]
      simp only [Option.some_bind]
      rw [skipWs_not _ _ (by decide)]
      simp +decide [parseFields_nl, hrec]
termination_by k v fs _ _ _ _ _ => sizeOf v + sizeOf fs
decreasing_by all_goals simp_arith
end

/-- Full codec round-trip: parsing the pretty-printed form of any JSON value
recovers exactly that value. -/
theorem parseJson_prettyStringify (j : Json) :
    parseJson (prettyStringify j) = some j := by
  have hv : parseVal ((printVal 0 j).length + 1) (printVal 0 j ++ []) =
      some (j, []) := rt_val j 0 _ [] (by omega) rfl
  rw [List.append_nil] at hv
  have hd : (prettyStringify j).data = printVal 0 j := rfl
  rw [parseJson, hd, hv]
  simp [skipWs]

/-- C7: in `json` mode the handler returns `JSON.stringify(results, null, 2)`
of the untouched upstream body, and parsing that text yields a value equal to
the body — nothing is added, removed or changed. -/
theorem claim_C7 (args : ToolArgs) (up : UpstreamCall → UpstreamResponse)
    (call : UpstreamCall) (body : Json)
    (hr : route args = .ok call) (hu : up call = .ok body)
    (hf : args.format.getD "json" ≠ "text") :
    handleTool args up = .ok (prettyStringify body) ∧
    parseJson (prettyStringify body) = some body := by
  constructor
  · simp [handleTool, tryBody, hr, hu, formatOutput, hf]
  · exact parseJson_prettyStringify body

/-- A nested payload exercising strings with escapes, negative numbers,
arrays and objects. -/
def body0 : Json :=
  .obj [("name", .str "A \"x\"\nb"), ("n", .num (-42)),
    ("l", .arr [.num 0, .null, .bool true, .obj [], .arr []])]

/-- Witness for C7 at a concrete invocation and payload. -/
theorem claim_C7_w :
    handleTool { type := some "event", eventId := some "E1" }
      (fun _ => .ok body0) = .ok (prettyStringify body0) ∧
    parseJson (prettyStringify body0) = some body0 :=
  claim_C7 { type := some "event", eventId := some "E1" }
    (fun _ => .ok body0) (.getEvent "E1") body0 rfl rfl (by decide)
